import Mathlib

/-
Verification development for the calibration artifact model of the
ip_isr repository (python/lsst/ip/isr/calibType.py): the IsrCalib base
class and its IsrProvenance subclass.

The embedding models Python values with the inductive PyVal (Python
None is PyVal.pnone), dictionaries and daf.base PropertyList objects as
insertion-ordered association lists (setting an existing key updates it
in place, a new key is appended, which matches both dict and
PropertyList assignment), astropy tables as a record of column names,
rows and attached metadata, and Python exceptions as an Except monad.
Python set objects are modelled as insertion-ordered duplicate-free
lists compared extensionally.  String primitives used by the source
(split, lower, endswith, in, os.path.splitext) are implemented as
executable character-list functions mirroring the Python semantics.
-/

namespace IpIsr

/-- A Python scalar or dictionary value.  pnone is the Python None. -/
inductive PyVal where
  | pnone : PyVal
  | str : String → PyVal
  | int : Int → PyVal
  | dict : List (String × PyVal) → PyVal
deriving Repr

mutual

def PyVal.beqFn : PyVal → PyVal → Bool
  | .pnone, .pnone => true
  | .str a, .str b => a == b
  | .int a, .int b => a == b
  | .dict a, .dict b => PyVal.beqEntries a b
  | _, _ => false

def PyVal.beqEntries : List (String × PyVal) → List (String × PyVal) → Bool
  | [], [] => true
  | (k, v) :: r, (k2, v2) :: r2 => k == k2 && PyVal.beqFn v v2 && PyVal.beqEntries r r2
  | _, _ => false

end

mutual

theorem PyVal.beqFn_iff : ∀ a b : PyVal, PyVal.beqFn a b = true ↔ a = b
  | .pnone, .pnone => by simp [PyVal.beqFn]
  | .pnone, .str _ => by simp [PyVal.beqFn]
  | .pnone, .int _ => by simp [PyVal.beqFn]
  | .pnone, .dict _ => by simp [PyVal.beqFn]
  | .str _, .pnone => by simp [PyVal.beqFn]
  | .str a, .str b => by simp [PyVal.beqFn]
  | .str _, .int _ => by simp [PyVal.beqFn]
  | .str _, .dict _ => by simp [PyVal.beqFn]
  | .int _, .pnone => by simp [PyVal.beqFn]
  | .int _, .str _ => by simp [PyVal.beqFn]
  | .int a, .int b => by simp [PyVal.beqFn]
  | .int _, .dict _ => by simp [PyVal.beqFn]
  | .dict _, .pnone => by simp [PyVal.beqFn]
  | .dict _, .str _ => by simp [PyVal.beqFn]
  | .dict _, .int _ => by simp [PyVal.beqFn]
  | .dict a, .dict b => by
      simp only [PyVal.beqFn]
      rw [PyVal.beqEntries_iff a b]
      constructor
      · intro h; rw [h]
      · intro h; cases h; rfl

theorem PyVal.beqEntries_iff : ∀ a b : List (String × PyVal), PyVal.beqEntries a b = true ↔ a = b
  | [], [] => by simp [PyVal.beqEntries]
  | [], _ :: _ => by simp [PyVal.beqEntries]
  | _ :: _, [] => by simp [PyVal.beqEntries]
  | (k, v) :: r, (k2, v2) :: r2 => by
      simp only [PyVal.beqEntries, Bool.and_eq_true, beq_iff_eq]
      rw [PyVal.beqFn_iff v v2, PyVal.beqEntries_iff r r2]
      constructor
      · rintro ⟨⟨h1, h2⟩, h3⟩; simp [h1, h2, h3]
      · intro h; injection h with h1 h2; injection h1 with ha hb; exact ⟨⟨ha, hb⟩, h2⟩

end

instance : DecidableEq PyVal := fun a b =>
  if h : PyVal.beqFn a b = true then
    .isTrue ((PyVal.beqFn_iff a b).mp h)
  else
    .isFalse (fun hab => h ((PyVal.beqFn_iff a b).mpr hab))

/-- Python truthiness for the values the source tests with a bare if. -/
def truthy : PyVal → Bool
  | .pnone => false
  | .str s => !(s == "")
  | .int n => !(n == 0)
  | .dict d => !d.isEmpty

/-- The expression v if v else None used throughout updateMetadata. -/
def orNone (v : PyVal) : PyVal := if truthy v then v else .pnone

/-- A Python dict or daf.base PropertyList: insertion-ordered entries. -/
abbrev Metadata := List (String × PyVal)

/-- Dictionary lookup (first occurrence; lists built by mdSet have unique keys). -/
def mdGet : Metadata → String → Option PyVal
  | [], _ => none
  | (k, v) :: rest, key => if k = key then some v else mdGet rest key

/-- Dictionary / PropertyList assignment: update in place or append. -/
def mdSet : Metadata → String → PyVal → Metadata
  | [], key, v => [(key, v)]
  | (k, w) :: rest, key, v =>
      if k = key then (k, v) :: rest else (k, w) :: mdSet rest key v

/-- Python dict.update: assign every entry of the second dict in order. -/
def mdUpdate (m kvs : Metadata) : Metadata :=
  kvs.foldl (fun acc kv => mdSet acc kv.1 kv.2) m

theorem mdGet_mdSet (m : Metadata) (k : String) (v : PyVal) (k2 : String) :
    mdGet (mdSet m k v) k2 = if k = k2 then some v else mdGet m k2 := by
  induction m with
  | nil => by_cases h : k = k2 <;> simp [mdSet, mdGet, h]
  | cons hd tl ih =>
      obtain ⟨k0, v0⟩ := hd
      by_cases h0 : k0 = k
      · subst h0
        by_cases h2 : k0 = k2 <;> simp [mdSet, mdGet, h2]
      · by_cases h2 : k0 = k2
        · subst h2
          have hne : k ≠ k0 := fun h => h0 h.symm
          simp [mdSet, h0, mdGet, hne]
        · simp [mdSet, mdGet, h0, h2, ih]

theorem mdSet_keys (m : Metadata) (k : String) (v : PyVal) :
    (mdSet m k v).map Prod.fst =
      if k ∈ m.map Prod.fst then m.map Prod.fst else m.map Prod.fst ++ [k] := by
  induction m with
  | nil => simp [mdSet]
  | cons hd tl ih =>
      obtain ⟨k0, v0⟩ := hd
      by_cases h0 : k0 = k
      · subst h0; simp [mdSet]
      · have hne : k ≠ k0 := fun h => h0 h.symm
        by_cases hk : k ∈ tl.map Prod.fst
        · simp [mdSet, h0, ih, hk, hne]
        · simp [mdSet, h0, ih, hk, hne]

theorem mdGet_mem_keys {m : Metadata} {k : String} {v : PyVal}
    (h : mdGet m k = some v) : k ∈ m.map Prod.fst := by
  induction m with
  | nil => simp [mdGet] at h
  | cons hd tl ih =>
      obtain ⟨k0, v0⟩ := hd
      by_cases h0 : k0 = k
      · simp [h0]
      · simp only [mdGet, if_neg h0] at h
        simp [ih h]

theorem mdSet_nodup (m : Metadata) (k : String) (v : PyVal)
    (h : (m.map Prod.fst).Nodup) : ((mdSet m k v).map Prod.fst).Nodup := by
  rw [mdSet_keys]
  by_cases hk : k ∈ m.map Prod.fst
  · simpa [hk]
  · simp only [hk, if_false]
    rw [List.nodup_append]
    refine ⟨h, List.nodup_singleton k, ?_⟩
    intro a ha hb
    rw [List.mem_singleton] at hb
    subst hb
    exact hk ha

theorem mdUpdate_nodup (m kvs : Metadata) (h : (m.map Prod.fst).Nodup) :
    ((mdUpdate m kvs).map Prod.fst).Nodup := by
  induction kvs generalizing m with
  | nil => simpa [mdUpdate]
  | cons hd tl ih =>
      simpa [mdUpdate] using ih (mdSet m hd.1 hd.2) (mdSet_nodup m hd.1 hd.2 h)

/-- Lookup through dict.update when the updating dict has unique keys. -/
theorem mdGet_mdUpdate (m kvs : Metadata) (k : String)
    (h : (kvs.map Prod.fst).Nodup) :
    mdGet (mdUpdate m kvs) k =
      match mdGet kvs k with
      | some v => some v
      | none => mdGet m k := by
  induction kvs generalizing m with
  | nil => simp [mdUpdate, mdGet]
  | cons hd tl ih =>
      obtain ⟨k0, v0⟩ := hd
      simp only [List.map_cons, List.nodup_cons] at h
      have step : mdUpdate m ((k0, v0) :: tl) = mdUpdate (mdSet m k0 v0) tl := by
        simp [mdUpdate]
      rw [step, ih (mdSet m k0 v0) h.2]
      by_cases hk : k0 = k
      · subst hk
        have hnone : mdGet tl k0 = none := by
          cases hmem : mdGet tl k0 with
          | none => rfl
          | some w => exact absurd (mdGet_mem_keys hmem) h.1
        simp [hnone, mdGet, mdGet_mdSet]
      · simp [mdGet, hk, mdGet_mdSet]

/-! String primitives used by the source, implemented over character lists. -/

/-- Python str.split(sep) for a one-character separator. -/
def splitChar (cs : List Char) (sep : Char) : List (List Char) :=
  match cs with
  | [] => [[]]
  | c :: rest =>
      let r := splitChar rest sep
      if c = sep then [] :: r
      else
        match r with
        | g :: gs => (c :: g) :: gs
        | [] => [[c]]

def pySplit (s : String) (sep : Char) : List String :=
  (splitChar s.data sep).map (fun g => ⟨g⟩)

/-- Python membership test: sep in s, for a one-character needle. -/
def pyContains (s : String) (c : Char) : Bool :=
  s.data.contains c

/-- Python str.lower. -/
def pyLower (s : String) : String :=
  ⟨s.data.map Char.toLower⟩

def listEndsWith (a b : List Char) : Bool :=
  a.drop (a.length - b.length) == b

/-- Python str.endswith. -/
def pyEndsWith (s suffix : String) : Bool :=
  listEndsWith s.data suffix.data

def lastIndexOfAux (cs : List Char) (c : Char) (i : Nat) (best : Option Nat) : Option Nat :=
  match cs with
  | [] => best
  | x :: rest => lastIndexOfAux rest c (i + 1) (if x = c then some i else best)

/-- os.path.splitext: split the extension off at the last dot of the
basename, treating a basename made only of leading dots as having no
extension (the algorithm of posixpath). -/
def splitext (p : String) : String × String :=
  let cs := p.data
  let sepIndex : Int :=
    match lastIndexOfAux cs '/' 0 none with
    | some i => (i : Int)
    | none => -1
  let dotIndex : Int :=
    match lastIndexOfAux cs '.' 0 none with
    | some i => (i : Int)
    | none => -1
  if dotIndex > sepIndex then
    let filenameIndex := (sepIndex + 1).toNat
    let dotN := dotIndex.toNat
    if (List.range (dotN - filenameIndex)).any
        (fun j => cs.getD (filenameIndex + j) '.' != '.') then
      (⟨cs.take dotN⟩, ⟨cs.drop dotN⟩)
    else (p, "")
  else (p, "")

/-- Ascending insertion sort on strings: Python sorted() on str keys. -/
def insertSorted (x : String) : List String → List String
  | [] => [x]
  | y :: ys => if x ≤ y then x :: y :: ys else y :: insertSorted x ys

def sortStrings : List String → List String
  | [] => []
  | x :: xs => insertSorted x (sortStrings xs)

theorem mem_insertSorted (x a : String) (l : List String) :
    a ∈ insertSorted x l ↔ a = x ∨ a ∈ l := by
  induction l with
  | nil => simp [insertSorted]
  | cons y ys ih =>
      by_cases h : x ≤ y
      · simp [insertSorted, h]
      · simp only [insertSorted, if_neg h, List.mem_cons, ih]
        tauto

theorem mem_sortStrings (a : String) (l : List String) :
    a ∈ sortStrings l ↔ a ∈ l := by
  induction l with
  | nil => simp [sortStrings]
  | cons y ys ih => simp [sortStrings, mem_insertSorted, ih]

/-! The data model: Python exceptions, detector descriptors, timestamps,
and the IsrProvenance state. -/

/-- The Python exceptions the modelled code can raise. -/
inductive PyErr where
  | valueError : String → PyErr
  | runtimeError : String → PyErr
  | attributeError : String → PyErr
  | nameError : String → PyErr
  | typeError : String → PyErr
  | keyError : String → PyErr
  | indexError : String → PyErr
  | notImplementedError : String → PyErr
deriving DecidableEq, Repr

/-- The lsst.afw.cameraGeom.Detector collaborator: getName, getSerial, getId. -/
structure Detector where
  name : String
  serial : String
  id : Int
deriving DecidableEq, Repr

/-- The three strings datetime.now() contributes in updateMetadata:
date.isoformat(), date.date().isoformat(), date.time().isoformat(). -/
structure DateStamp where
  iso : String
  date : String
  time : String
deriving DecidableEq, Repr

/-- A Python dict used as a data identifier (dimension name to value). -/
abbrev DataId := List (String × PyVal)

/-- The state of an IsrProvenance object: the identity fields managed by
IsrCalib plus the three subclass fields.  The class constants are
IsrProvenance for OBSTYPE, NO SCHEMA for SCHEMA, 0 for VERSION.
dimensions models a Python set as an insertion-ordered list compared by
membership. -/
structure Prov where
  instrument : PyVal
  raftName : PyVal
  slotName : PyVal
  detectorName : PyVal
  detectorSerial : PyVal
  detectorId : PyVal
  filter : PyVal
  calibId : PyVal
  metadata : Metadata
  calibType : PyVal
  dimensions : List String
  dataIdList : List DataId
deriving Repr

def OBSTYPE : String := "IsrProvenance"

/-- IsrCalib.setMetadata: store a copy of the argument (or keep the
current metadata when the argument is None), then force-write the
OBSTYPE, <OBSTYPE>_SCHEMA and <OBSTYPE>_VERSION keys from the class
constants. -/
def IsrCalib.setMetadata (s : Prov) (metadata : Option Metadata) : Prov :=
  let m := match metadata with
    | some md => md
    | none => s.metadata
  let m := mdSet m "OBSTYPE" (.str OBSTYPE)
  let m := mdSet m (OBSTYPE ++ "_SCHEMA") (.str "NO SCHEMA")
  let m := mdSet m (OBSTYPE ++ "_VERSION") (.int 0)
  { s with metadata := m }

/-- Lines 241-248 of the source: write the eight identity keys into the
metadata, substituting None for falsy fields. -/
def writeIdentity (m : Metadata) (s : Prov) : Metadata :=
  let m := mdSet m "INSTRUME" (orNone s.instrument)
  let m := mdSet m "RAFTNAME" (orNone s.raftName)
  let m := mdSet m "SLOTNAME" (orNone s.slotName)
  let m := mdSet m "DETECTOR" (orNone s.detectorId)
  let m := mdSet m "DET_NAME" (orNone s.detectorName)
  let m := mdSet m "DET_SER" (orNone s.detectorSerial)
  let m := mdSet m "FILTER" (orNone s.filter)
  let m := mdSet m "CALIB_ID" (orNone s.calibId)
  m

/-- The CALIBDATE entries staged into mdSupplemental when setDate is true. -/
def dateSupp (setDate : Bool) (now : DateStamp) : Metadata :=
  if setDate then
    [("CALIBDATE", .str now.iso),
     ("CALIB_CREATION_DATE", .str now.date),
     ("CALIB_CREATION_TIME", .str now.time)]
  else []

/-- IsrCalib.updateMetadata.  Follows the source statement by statement:
camera sets the instrument; a detector sets name, serial and id and,
when the name contains an underscore, destructures name.split into the
raft and slot pair (a ValueError when the split does not have exactly
two parts); a truthy filterName sets the filter; setCalibId builds the
calib id, but the conditional on the detector entry reads
self._detector, an attribute never assigned anywhere, so that branch
always raises AttributeError; setDate stages the CALIBDATE entries;
then the eight identity keys are written and the staged entries plus
the keyword arguments are merged into the metadata. -/
def IsrCalib.updateMetadata (s : Prov) (camera : Option String)
    (detector : Option Detector) (filterName : PyVal)
    (setCalibId setDate : Bool) (now : DateStamp) (kwargs : Metadata) :
    Except PyErr Prov := do
  let s ← match camera with
    | some name => pure { s with instrument := .str name }
    | none => pure s
  let s ← match detector with
    | some det => do
        let s := { s with
          detectorName := .str det.name,
          detectorSerial := .str det.serial,
          detectorId := .int det.id }
        if pyContains det.name '_' then
          match pySplit det.name '_' with
          | [raft, slot] =>
              pure { s with raftName := .str raft, slotName := .str slot }
          | _ => throw (.valueError "too many values to unpack")
        else pure s
    | none => pure s
  let s := if truthy filterName then { s with filter := filterName } else s
  if setCalibId then
    throw (.attributeError "_detector")
  else
    let mdSupplemental := dateSupp setDate now
    let m := writeIdentity s.metadata s
    let mdSupplemental := mdUpdate mdSupplemental kwargs
    let m := mdUpdate m mdSupplemental
    pure { s with metadata := m }

/-- Keyword names that the Python call super().updateMetadata(**kwargs)
would bind to the base method parameters instead of forwarding. -/
def forbiddenKw : List String := ["camera", "detector", "filterName", "setCalibId"]

/-- IsrProvenance.updateMetadata: force kwargs[calibType] to the stored
calibType and delegate to the base method.  In Python an entry of
kwargs named like a base-method parameter would be bound to that
parameter; no caller in this development passes one, and the embedding
rejects such an entry explicitly instead of misreading it. -/
def IsrProvenance.updateMetadataKw (s : Prov) (setDate : Bool)
    (now : DateStamp) (kwargs : Metadata) : Except PyErr Prov :=
  if forbiddenKw.any (fun k => (mdGet kwargs k).isSome) then
    .error (.typeError "keyword argument shadows a parameter")
  else
    IsrCalib.updateMetadata s none none .pnone false setDate now
      (mdSet kwargs "calibType" s.calibType)

/-- The detector=None path of IsrProvenance.__init__ (with a detector the
constructor raises NotImplementedError from fromDetector first, see
IsrProvenance.construct): initialise the identity fields, install an
empty PropertyList through setMetadata, and run
updateMetadata(camera=camera, detector=None, setDate=False), which the
subclass override extends with the calibType entry.  The error branch
is unreachable: with no detector and setCalibId false, updateMetadata
only returns ok. -/
def initProv (calibType : PyVal) (camera : Option String)
    (detectorName detectorId : PyVal) : Prov :=
  let s : Prov := {
    instrument := .pnone, raftName := .pnone, slotName := .pnone,
    detectorName := detectorName, detectorSerial := .pnone,
    detectorId := detectorId, filter := .pnone, calibId := .pnone,
    metadata := [], calibType := calibType,
    dimensions := [], dataIdList := [] }
  let s := IsrCalib.setMetadata s (some [])
  match IsrCalib.updateMetadata s camera none .pnone false false
      ⟨"", "", ""⟩ [("calibType", calibType)] with
  | .ok s2 => s2
  | .error _ => s

/-- IsrProvenance(...) with an optional detector argument: the base
constructor calls self.fromDetector(detector) for a non-None detector,
and IsrProvenance does not override fromDetector, so construction with
a detector raises NotImplementedError before updateMetadata runs. -/
def IsrProvenance.construct (calibType : PyVal) (camera : Option String)
    (detector : Option Detector) (detectorName detectorId : PyVal) :
    Except PyErr Prov :=
  match detector with
  | some _ => .error (.notImplementedError "Must be implemented by subclass.")
  | none => .ok (initProv calibType camera detectorName detectorId)

/-- IsrProvenance.fromDataIds: for each identifier, add each of its keys
to the dimension set when absent, then append the identifier. -/
def IsrProvenance.fromDataIds (s : Prov) (dataIdList : List DataId) : Prov :=
  dataIdList.foldl
    (fun st dataId =>
      { st with
        dimensions := dataId.foldl
          (fun dims kv => if kv.1 ∈ dims then dims else dims ++ [kv.1])
          st.dimensions,
        dataIdList := st.dataIdList ++ [dataId] })
    s

/-- A constructor call followed by any sequence of fromDataIds calls:
the validly constructed instances the round-trip claims range over. -/
def buildProv (calibType : PyVal) (camera : Option String)
    (detectorName : PyVal) (calls : List (List DataId)) : Prov :=
  calls.foldl IsrProvenance.fromDataIds
    (initProv calibType camera detectorName .pnone)

/-! Equivalence.  IsrCalib.__eq__ requires the same concrete class and
compares every attribute in requiredAttributes, which for IsrProvenance
is the eleven base attributes (three class constants included) plus
calibType, dimensions and dataIdList.  PropertyList and set and dict
comparisons are order-insensitive, list comparisons pointwise. -/

/-- Python dict equality between two data identifiers: extensional. -/
def dataIdEquiv (a b : DataId) : Prop :=
  ∀ k, mdGet a k = mdGet b k

/-- Python list equality on dataIdList: pointwise dict equality. -/
def dataIdListEquiv (a b : List DataId) : Prop :=
  List.Forall₂ dataIdEquiv a b

/-- Python set equality on dimensions: same members. -/
def dimsSetEq (a b : List String) : Prop :=
  ∀ d, d ∈ a ↔ d ∈ b

/-- Executable set equality, used in hypotheses and in the astropy row
check. -/
def dimsSetEqB (a b : List String) : Bool :=
  a.all (fun d => b.contains d) && b.all (fun d => a.contains d)

theorem dimsSetEqB_iff (a b : List String) :
    dimsSetEqB a b = true ↔ dimsSetEq a b := by
  constructor
  · intro h d
    simp only [dimsSetEqB, Bool.and_eq_true, List.all_eq_true] at h
    constructor
    · intro hd
      have := h.1 d hd
      simpa [List.elem_iff] using this
    · intro hd
      have := h.2 d hd
      simpa [List.elem_iff] using this
  · intro h
    simp only [dimsSetEqB, Bool.and_eq_true, List.all_eq_true]
    constructor
    · intro d hd; simpa [List.elem_iff] using (h d).mp hd
    · intro d hd; simpa [List.elem_iff] using (h d).mpr hd

/-- PropertyList equality with a set of metadata keys left out of the
comparison: the claims exclude the creation-timestamp keys, which the
write paths regenerate. -/
def mdEquivExcl (excl : List String) (m1 m2 : Metadata) : Prop :=
  ∀ k, k ∉ excl → mdGet m1 k = mdGet m2 k

/-- The creation-timestamp keys stamped by updateMetadata(setDate=True). -/
def tsKeys : List String := ["CALIBDATE", "CALIB_CREATION_DATE", "CALIB_CREATION_TIME"]

/-- IsrCalib.__eq__ between two IsrProvenance states, with the metadata
comparison restricted to the keys outside excl (excl = [] is the exact
__eq__ rule). -/
def provEquivExcl (excl : List String) (a b : Prov) : Prop :=
  a.instrument = b.instrument ∧
  a.raftName = b.raftName ∧
  a.slotName = b.slotName ∧
  a.detectorName = b.detectorName ∧
  a.detectorSerial = b.detectorSerial ∧
  a.detectorId = b.detectorId ∧
  a.filter = b.filter ∧
  a.calibId = b.calibId ∧
  a.calibType = b.calibType ∧
  mdEquivExcl excl a.metadata b.metadata ∧
  dimsSetEq a.dimensions b.dimensions ∧
  dataIdListEquiv a.dataIdList b.dataIdList

theorem dataIdListEquiv_refl (l : List DataId) : dataIdListEquiv l l := by
  induction l with
  | nil => exact List.Forall₂.nil
  | cons hd tl ih => exact List.Forall₂.cons (fun k => rfl) ih

/-! The dictionary representation.  toDict emits a dict with exactly the
keys metadata, detectorName, detectorSerial, instrument, calibType,
dimensions, dataIdList; fromDict reads those keys, looking the three
identity values up in the nested metadata when the top-level key is
absent.  The Option on the three identity fields records top-level
presence. -/

structure ProvDict where
  metadata : Metadata
  detectorName : Option PyVal
  detectorSerial : Option PyVal
  instrument : Option PyVal
  calibType : PyVal
  dimensions : List String
  dataIdList : List DataId
deriving Repr

/-- IsrProvenance.fromDict: build a fresh instance, merge the metadata
entries of the dictionary through updateMetadata (the subclass override
overwrites the calibType entry with the still-default value), restore
detectorName, detectorSerial and instrument from the top level
(falling back to DET_NAME, DET_SER, INSTRUME inside metadata), assign
calibType, dimensions and dataIdList, and run updateMetadata once more.
The raftName, slotName, detectorId, filter and calibId fields are never
restored. -/
def IsrProvenance.fromDict (dictionary : ProvDict) (now : DateStamp) :
    Except PyErr Prov := do
  let calib := initProv (.str "unknown") none .pnone .pnone
  let calib ← IsrProvenance.updateMetadataKw calib false now dictionary.metadata
  let calib := { calib with
    detectorName := dictionary.detectorName.getD
      ((mdGet dictionary.metadata "DET_NAME").getD .pnone),
    detectorSerial := dictionary.detectorSerial.getD
      ((mdGet dictionary.metadata "DET_SER").getD .pnone),
    instrument := dictionary.instrument.getD
      ((mdGet dictionary.metadata "INSTRUME").getD .pnone),
    calibType := dictionary.calibType,
    dimensions := dictionary.dimensions,
    dataIdList := dictionary.dataIdList }
  IsrProvenance.updateMetadataKw calib false now []

/-- IsrProvenance.toDict: stamp the creation time through
updateMetadata(setDate=True), then emit the dictionary.  Returns the
mutated state alongside the dictionary, since the Python method mutates
self. -/
def IsrProvenance.toDict (s : Prov) (now : DateStamp) :
    Except PyErr (Prov × ProvDict) := do
  let s ← IsrProvenance.updateMetadataKw s true now []
  pure (s, {
    metadata := s.metadata,
    detectorName := some s.detectorName,
    detectorSerial := some s.detectorSerial,
    instrument := some s.instrument,
    calibType := s.calibType,
    dimensions := s.dimensions,
    dataIdList := s.dataIdList })

/-! The table representation.  An astropy Table is modelled as column
names, rows of values parallel to the names, and attached metadata. -/

structure PTable where
  names : List String
  rows : List (List PyVal)
  meta : Metadata
deriving Repr

/-- Table(rows=dataIdList, names=dimensions): astropy requires each row
dict to carry exactly the named keys, and refuses an empty rows list. -/
def mkTable (rows : List DataId) (names : List String) : Except PyErr PTable := do
  if rows.isEmpty then
    throw (.valueError "rows must not be empty")
  let dataRows ← rows.mapM (fun r => do
    if dimsSetEqB (r.map Prod.fst) names then
      names.mapM (fun c =>
        match mdGet r c with
        | some v => pure v
        | none => throw (.keyError c))
    else throw (.valueError "row keys mismatch"))
  pure { names := names, rows := dataRows, meta := [] }

/-- row[colName]: the value in the column of that name. -/
def rowGet (names : List String) (vals : List PyVal) (col : String) :
    Except PyErr PyVal :=
  match names, vals with
  | n :: ns, v :: vs => if n = col then .ok v else rowGet ns vs col
  | _, _ => .error (.keyError col)

/-- IsrProvenance.toTable: stamp the creation time, build one table from
the stored identifiers with the stored (unsorted) dimension order as
column names, attach every non-None metadata entry as table metadata,
and return a single-element list.  Returns the mutated state as well. -/
def IsrProvenance.toTable (s : Prov) (now : DateStamp) :
    Except PyErr (Prov × List PTable) := do
  let s ← IsrProvenance.updateMetadataKw s true now []
  let catalog ← mkTable s.dataIdList s.dimensions
  let filteredMetadata := s.metadata.filter (fun kv => kv.2 != PyVal.pnone)
  pure (s, [{ catalog with meta := filteredMetadata }])

/-- IsrProvenance.fromTable: use the first table only; take identity
values and calibType from its metadata; map each lower-cased column
name to its original column; sort the lower-cased dimension names; and
build one identifier per row, keyed by the sorted lower-cased names. -/
def IsrProvenance.fromTable (tableList : List PTable) (now : DateStamp) :
    Except PyErr Prov := do
  let table ← match tableList with
    | t :: _ => pure t
    | [] => throw (.indexError "list index out of range")
  let metadata := table.meta
  let calibType ← match mdGet metadata "calibType" with
    | some v => pure v
    | none => throw (.keyError "calibType")
  let schema := table.names.foldl
    (fun sch c => mdSet sch (pyLower c) (.str c)) []
  let dims := table.names.foldl
    (fun ds c => if pyLower c ∈ ds then ds else ds ++ [pyLower c]) []
  let dimsSorted := sortStrings dims
  let dataIdList ← table.rows.mapM (fun row =>
    dimsSorted.mapM (fun dim =>
      (match mdGet schema dim with
        | some (.str c) => Except.ok c
        | _ => Except.error (.keyError dim)) >>= fun col =>
      rowGet table.names row col >>= fun v =>
      Except.ok (dim, v)))
  IsrProvenance.fromDict {
    metadata := metadata,
    detectorName := some ((mdGet metadata "DET_NAME").getD .pnone),
    detectorSerial := some ((mdGet metadata "DET_SER").getD .pnone),
    instrument := some ((mdGet metadata "INSTRUME").getD .pnone),
    calibType := calibType,
    dimensions := dimsSorted,
    dataIdList := dataIdList } now

/-! calibInfoFromDict and its nested search helper. -/

theorem mdGet_dict_sizeOf {d : Metadata} {k : String} {v : PyVal}
    (h : mdGet d k = some v) : sizeOf v < sizeOf d := by
  induction d with
  | nil => simp [mdGet] at h
  | cons hd tl ih =>
      obtain ⟨k0, v0⟩ := hd
      by_cases h0 : k0 = k
      · simp only [mdGet, if_pos h0] at h
        cases h
        simp
        omega
      · simp only [mdGet, if_neg h0] at h
        have := ih h
        simp
        omega

/-- Deduplication with Python set semantics: first occurrences, in order
(the source builds a set; only its size and sole member are used). -/
def pyDedup (xs : List PyVal) : List PyVal :=
  xs.foldl (fun acc x => if x ∈ acc then acc else acc ++ [x]) []

/-- The search helper inside calibInfoFromDict.  It collects
haystack.get(x, None) for every needle into a set.  The set is never
empty for a nonempty needle list, so the branch that recurses into the
nested metadata is unreachable; a singleton set hits the expression
test[0], which indexes a set and raises TypeError; a larger set raises
the Too-many-values ValueError.  None counts as an ordinary member, so
an alias that is merely absent already inflates the set. -/
def search (haystack : Metadata) (needles : List String) : Except PyErr PyVal :=
  let test := pyDedup (needles.map (fun x => (mdGet haystack x).getD .pnone))
  match test with
  | [] =>
      match hm : mdGet haystack "metadata" with
      | some (.dict m) => search m needles
      | some _ => .error (.typeError "argument is not a mapping")
      | none => .ok .pnone
  | [_t] => .error (.typeError "set object is not subscriptable")
  | _ => .error (.valueError ("Too many values found: " ++ toString test.length))
termination_by sizeOf haystack
decreasing_by
  have := mdGet_dict_sizeOf hm
  simp at this
  omega

/-- IsrCalib.calibInfoFromDict.  The OBSTYPE comparison against a nested
metadata entry raises, on mismatch, not the intended RuntimeError but a
NameError: the message interpolates calib._OBSTYPE and the name calib
is unbound inside the method.  The identity fields are then recovered
through search, and _detectorSerial substitutes for a falsy
_detectorId. -/
def IsrCalib.calibInfoFromDict (s : Prov) (dictionary : Metadata) :
    Except PyErr Prov := do
  match mdGet dictionary "metadata" with
  | some metaVal =>
      let obstype ← match metaVal with
        | .dict m =>
            match mdGet m "OBSTYPE" with
            | some v => pure v
            | none => throw (.keyError "OBSTYPE")
        | _ => throw (.typeError "argument is not a mapping")
      if PyVal.str OBSTYPE ≠ obstype then
        throw (.nameError "calib")
      else pure ()
  | none => pure ()
  let instrument ← search dictionary ["INSTRUME", "instrument"]
  let raftName ← search dictionary ["RAFTNAME"]
  let slotName ← search dictionary ["SLOTNAME"]
  let detectorId ← search dictionary ["DETECTOR", "detectorId"]
  let detectorName ← search dictionary ["DET_NAME", "DETECTOR_NAME", "detectorName"]
  let detectorSerial ← search dictionary ["DET_SER", "DETECTOR_SERIAL", "detectorSerial"]
  let filterV ← search dictionary ["FILTER"]
  let calibId ← search dictionary ["CALIB_ID"]
  let s := { s with
    instrument := instrument, raftName := raftName, slotName := slotName,
    detectorId := detectorId, detectorName := detectorName,
    detectorSerial := detectorSerial, filter := filterV, calibId := calibId }
  let s := if !truthy s.detectorId && truthy s.detectorSerial then
      { s with detectorId := s.detectorSerial }
    else s
  pure s

/-! The FITS container.  A file is a list of header-data segments;
segment 0 is the empty primary, table segments hold one table each. -/

/-- fits.HDUList written by writeFits: a PrimaryHDU then one table HDU
per table. -/
def writeFitsSegments (tables : List PTable) : List (Option PTable) :=
  none :: tables.map some

/-- Table.read(filename, hdu=n). -/
def hduRead (file : List (Option PTable)) (n : Nat) : Except PyErr PTable :=
  match file.get? n with
  | some (some t) => .ok t
  | some none => .error (.valueError "HDU is not a table")
  | none => .error (.indexError "hdu out of range")

/-- The body of the try block in readFits.  It opens with the context
manager warnings.catch_warnings("error"); catch_warnings accepts only
keyword arguments, so the positional argument raises TypeError right
here and the read of the next HDU below is never reached. -/
def readFitsTry (file : List (Option PTable)) (extNum : Nat) :
    Except PyErr PTable := do
  (throw (.typeError "catch_warnings takes 1 positional argument but 2 were given") :
    Except PyErr Unit)
  hduRead file extNum

/-- The table-collection phase of IsrCalib.readFits: read HDU 1
unconditionally, then run the try block once — the source has no loop,
its extNum increment is dead code — ignoring any exception.  Since the
try body raises TypeError at the catch_warnings call before reading
HDU 2, exactly one table is returned for every file. -/
def readFitsTables (file : List (Option PTable)) : Except PyErr (List PTable) := do
  let t1 ← hduRead file 1
  let tableList := [t1]
  match readFitsTry file 2 with
  | .ok newTable => pure (tableList ++ [newTable])
  | .error _ => pure tableList

/-- IsrCalib.readFits: collect the tables, then build through fromTable. -/
def IsrCalib.readFits (file : List (Option PTable)) (now : DateStamp) :
    Except PyErr Prov := do
  let ts ← readFitsTables file
  IsrProvenance.fromTable ts now

/-- IsrProvenance.writeFits: convert through toTable and write one
segment per table after the empty primary.  Returns the mutated state
and the file contents. -/
def IsrProvenance.writeFits (s : Prov) (now : DateStamp) :
    Except PyErr (Prov × List (Option PTable)) := do
  let (s, ts) ← IsrProvenance.toTable s now
  pure (s, writeFitsSegments ts)

/-! writeText. -/

/-- What writeText leaves on disk. -/
inductive TextFile where
  | yamlFile : ProvDict → TextFile
  | ecsvFile : PTable → TextFile

/-- The extension test of the yaml branch:
filename.lower().endswith((".yaml", ".YAML")). -/
def yamlExtMatch (filename : String) : Bool :=
  pyEndsWith (pyLower filename) ".yaml" || pyEndsWith (pyLower filename) ".YAML"

/-- The extension test of the ecsv branch. -/
def ecsvExtMatch (filename : String) : Bool :=
  pyEndsWith (pyLower filename) ".ecsv" || pyEndsWith (pyLower filename) ".ECSV"

/-- IsrCalib.writeText, parameterised by the results of the subclass
hooks self.toDict() and self.toTable() that the two branches invoke:
dispatch on the forced format or the filename extension, refuse more
than one table in the ecsv branch, normalize the written extension, and
raise the unsupported-format RuntimeError naming the filename
otherwise. -/
def IsrCalib.writeText (outDictE : Except PyErr ProvDict)
    (tableListE : Except PyErr (List PTable))
    (filename format : String) : Except PyErr (String × TextFile) := do
  if format == "yaml" || (format == "auto" && yamlExtMatch filename) then
    let outDict ← outDictE
    let path := (splitext filename).1
    let filename := path ++ ".yaml"
    pure (filename, .yamlFile outDict)
  else if format == "ecsv" || (format == "auto" && ecsvExtMatch filename) then
    let tableList ← tableListE
    if tableList.length > 1 then
      throw (.runtimeError
        ("Unable to persist " ++ toString tableList.length ++ "tables in ECSV format."))
    else
      let table ← match tableList with
        | t :: _ => pure t
        | [] => throw (.indexError "list index out of range")
      let path := (splitext filename).1
      let filename := path ++ ".ecsv"
      pure (filename, .ecsvFile table)
  else
    throw (.runtimeError
      ("Attempt to write to a file " ++ filename ++
        " that does not end in .yaml or .ecsv"))

/-! A heap model for the metadata reference semantics of getMetadata and
setMetadata: PropertyList objects live in a store addressed by
references, a calibration holds a reference, getMetadata returns the
reference itself (return self._metadata) and setMetadata allocates a
copy (copy.copy) before installing the class constants. -/

namespace RefModel

abbrev Ref := Nat

structure Heap where
  store : List (Ref × Metadata)
  next : Ref

def refGet : List (Ref × Metadata) → Ref → Option Metadata
  | [], _ => none
  | (r, m) :: rest, key => if r = key then some m else refGet rest key

def refSet : List (Ref × Metadata) → Ref → Metadata → List (Ref × Metadata)
  | [], key, m => [(key, m)]
  | (r, w) :: rest, key, m =>
      if r = key then (r, m) :: rest else (r, w) :: refSet rest key m

/-- Dereference: the PropertyList stored at a reference. -/
def hGet (h : Heap) (r : Ref) : Metadata := (refGet h.store r).getD []

def hSet (h : Heap) (r : Ref) (m : Metadata) : Heap :=
  { h with store := refSet h.store r m }

def alloc (h : Heap) (m : Metadata) : Heap × Ref :=
  ({ store := refSet h.store h.next m, next := h.next + 1 }, h.next)

/-- The object state relevant to lines 158-185: the reference held in
self._metadata. -/
structure CalibObj where
  metadataRef : Ref

/-- IsrCalib.getMetadata: return self._metadata — the stored reference
itself, not a copy. -/
def getMetadata (c : CalibObj) : Ref := c.metadataRef

/-- md[key] = value on a PropertyList reference: an in-place update of
the shared object. -/
def setItem (h : Heap) (r : Ref) (k : String) (v : PyVal) : Heap :=
  hSet h r (mdSet (hGet h r) k v)

/-- IsrCalib.setMetadata: copy.copy the argument into a fresh object,
store the new reference, and force-write the class-constant keys. -/
def setMetadata (h : Heap) (c : CalibObj) (mref : Ref) : Heap × CalibObj :=
  let (h, r) := alloc h (hGet h mref)
  let m := hGet h r
  let m := mdSet m "OBSTYPE" (.str OBSTYPE)
  let m := mdSet m (OBSTYPE ++ "_SCHEMA") (.str "NO SCHEMA")
  let m := mdSet m (OBSTYPE ++ "_VERSION") (.int 0)
  (hSet h r m, { c with metadataRef := r })

theorem refGet_refSet (st : List (Ref × Metadata)) (r : Ref) (m : Metadata)
    (r2 : Ref) :
    refGet (refSet st r m) r2 = if r = r2 then some m else refGet st r2 := by
  induction st with
  | nil => by_cases h : r = r2 <;> simp [refSet, refGet, h]
  | cons hd tl ih =>
      obtain ⟨r0, m0⟩ := hd
      by_cases h0 : r0 = r
      · subst h0
        by_cases h2 : r0 = r2 <;> simp [refSet, refGet, h2]
      · by_cases h2 : r0 = r2
        · subst h2
          have hne : r ≠ r0 := fun h => h0 h.symm
          simp [refSet, h0, refGet, hne]
        · simp [refSet, refGet, h0, h2, ih]

end RefModel

/-! Characterisations of the constructed states, used to stage the
round-trip proofs. -/

/-- The instrument field produced by the optional camera argument. -/
def camVal (camera : Option String) : PyVal :=
  match camera with
  | some name => .str name
  | none => .pnone

/-- The dimension set after recording a list of identifiers. -/
def dimsAfter (dims : List String) (l : List DataId) : List String :=
  l.foldl
    (fun ds did =>
      did.foldl (fun ds2 kv => if kv.1 ∈ ds2 then ds2 else ds2 ++ [kv.1]) ds)
    dims

theorem fromDataIds_eq (s : Prov) (l : List DataId) :
    IsrProvenance.fromDataIds s l =
      { s with dimensions := dimsAfter s.dimensions l,
               dataIdList := s.dataIdList ++ l } := by
  induction l generalizing s with
  | nil => simp [IsrProvenance.fromDataIds, dimsAfter]
  | cons hd tl ih =>
      simp only [IsrProvenance.fromDataIds, List.foldl_cons] at *
      rw [ih]
      simp [dimsAfter]

theorem foldl_fromDataIds (s : Prov) (calls : List (List DataId)) :
    calls.foldl IsrProvenance.fromDataIds s =
      IsrProvenance.fromDataIds s calls.join := by
  induction calls generalizing s with
  | nil => rfl
  | cons hd tl ih =>
      simp only [List.foldl_cons, List.join, ih]
      simp [IsrProvenance.fromDataIds, List.foldl_append]

/-- The metadata produced by constructing an instance with the given
calibType, camera, detectorName and detectorId. -/
def mdInit (ct : PyVal) (camera : Option String) (dn di : PyVal) : Metadata :=
  [("OBSTYPE", .str "IsrProvenance"),
   ("IsrProvenance_SCHEMA", .str "NO SCHEMA"),
   ("IsrProvenance_VERSION", .int 0),
   ("INSTRUME", orNone (camVal camera)),
   ("RAFTNAME", .pnone), ("SLOTNAME", .pnone),
   ("DETECTOR", orNone di), ("DET_NAME", orNone dn),
   ("DET_SER", .pnone), ("FILTER", .pnone),
   ("CALIB_ID", .pnone), ("calibType", ct)]

theorem initProv_eq (ct : PyVal) (camera : Option String) (dn di : PyVal) :
    initProv ct camera dn di = {
      instrument := camVal camera, raftName := .pnone, slotName := .pnone,
      detectorName := dn, detectorSerial := .pnone, detectorId := di,
      filter := .pnone, calibId := .pnone,
      metadata := mdInit ct camera dn di,
      calibType := ct, dimensions := [], dataIdList := [] } := by
  cases camera <;> rfl

theorem initProv_dims (ct : PyVal) (camera : Option String) (dn di : PyVal) :
    (initProv ct camera dn di).dimensions = [] := by
  rw [initProv_eq]

theorem initProv_dataIds (ct : PyVal) (camera : Option String) (dn di : PyVal) :
    (initProv ct camera dn di).dataIdList = [] := by
  rw [initProv_eq]

theorem buildProv_eq (ct : PyVal) (camera : Option String) (dn : PyVal)
    (calls : List (List DataId)) :
    buildProv ct camera dn calls =
      { instrument := camVal camera, raftName := .pnone, slotName := .pnone,
        detectorName := dn, detectorSerial := .pnone, detectorId := .pnone,
        filter := .pnone, calibId := .pnone,
        metadata := mdInit ct camera dn .pnone,
        calibType := ct,
        dimensions := dimsAfter [] calls.join,
        dataIdList := calls.join } := by
  unfold buildProv
  rw [foldl_fromDataIds, fromDataIds_eq, initProv_dims, initProv_dataIds,
    initProv_eq]
  rfl

theorem except_bind_ok {ε α β : Type} (x : α) (f : α → Except ε β) :
    ((Except.ok x : Except ε α) >>= f) = f x := rfl

/-- The state of a constructed instance carrying dimensions D and
identifier list L. -/
def provInit (ct : PyVal) (camera : Option String) (dn : PyVal)
    (D : List String) (L : List DataId) : Prov :=
  { instrument := camVal camera, raftName := .pnone, slotName := .pnone,
    detectorName := dn, detectorSerial := .pnone, detectorId := .pnone,
    filter := .pnone, calibId := .pnone,
    metadata := mdInit ct camera dn .pnone,
    calibType := ct, dimensions := D, dataIdList := L }

theorem buildProv_provInit (ct : PyVal) (camera : Option String) (dn : PyVal)
    (calls : List (List DataId)) :
    buildProv ct camera dn calls =
      provInit ct camera dn (dimsAfter [] calls.join) calls.join := by
  rw [buildProv_eq]
  rfl

/-- The creation-timestamp metadata entries. -/
def tsEntries (now : DateStamp) : Metadata :=
  [("CALIBDATE", .str now.iso),
   ("CALIB_CREATION_DATE", .str now.date),
   ("CALIB_CREATION_TIME", .str now.time)]

/-- The metadata after updateMetadata(setDate=True) on a constructed
instance. -/
def mdStamped (ct : PyVal) (camera : Option String) (dn : PyVal)
    (now : DateStamp) : Metadata :=
  mdInit ct camera dn .pnone ++ tsEntries now

/-- The state a constructed instance reaches once toDict or toTable has
stamped the creation time. -/
def provStamped (ct : PyVal) (camera : Option String) (dn : PyVal)
    (now : DateStamp) (D : List String) (L : List DataId) : Prov :=
  { provInit ct camera dn D L with metadata := mdStamped ct camera dn now }

/-- The dictionary toDict emits from a stamped constructed instance. -/
def dictOut (ct : PyVal) (camera : Option String) (dn : PyVal)
    (now : DateStamp) (D : List String) (L : List DataId) : ProvDict :=
  { metadata := mdStamped ct camera dn now,
    detectorName := some dn, detectorSerial := some .pnone,
    instrument := some (camVal camera),
    calibType := ct, dimensions := D, dataIdList := L }

theorem toDict_provInit (ct : PyVal) (camera : Option String) (dn : PyVal)
    (now : DateStamp) (D : List String) (L : List DataId) :
    IsrProvenance.toDict (provInit ct camera dn D L) now =
      .ok (provStamped ct camera dn now D L, dictOut ct camera dn now D L) := by
  rfl

/-- The intermediate state of fromDict after the metadata of the source
dictionary has been merged into a fresh instance: the identity fields
are still the defaults and the calibType metadata entry reads unknown. -/
def provMid (camera : Option String) (dn : PyVal) (now : DateStamp) : Prov :=
  { instrument := .pnone, raftName := .pnone, slotName := .pnone,
    detectorName := .pnone, detectorSerial := .pnone, detectorId := .pnone,
    filter := .pnone, calibId := .pnone,
    metadata := mdInit (.str "unknown") camera dn .pnone ++ tsEntries now,
    calibType := .str "unknown", dimensions := [], dataIdList := [] }

theorem fromDict_stageA (ct : PyVal) (camera : Option String) (dn : PyVal)
    (now : DateStamp) :
    IsrProvenance.updateMetadataKw (initProv (.str "unknown") none .pnone .pnone)
        false now (mdStamped ct camera dn now) =
      .ok (provMid camera dn now) := by
  rfl

/-- The fromDict state after the top-level fields are restored. -/
def provRestored (ct : PyVal) (camera : Option String) (dn : PyVal)
    (now : DateStamp) (D : List String) (L : List DataId) : Prov :=
  { provMid camera dn now with
      instrument := camVal camera, detectorName := dn, calibType := ct,
      dimensions := D, dataIdList := L }

theorem fromDict_stageB (ct : PyVal) (camera : Option String) (dn : PyVal)
    (now : DateStamp) (D : List String) (L : List DataId) :
    IsrProvenance.updateMetadataKw (provRestored ct camera dn now D L)
        false now [] =
      .ok (provStamped ct camera dn now D L) := by
  rfl

theorem fromDict_dictOut (ct : PyVal) (camera : Option String) (dn : PyVal)
    (now : DateStamp) (D : List String) (L : List DataId) :
    IsrProvenance.fromDict (dictOut ct camera dn now D L) now =
      .ok (provStamped ct camera dn now D L) := by
  have hA := fromDict_stageA ct camera dn now
  have hB := fromDict_stageB ct camera dn now D L
  simp only [IsrProvenance.fromDict, dictOut, hA, except_bind_ok]
  exact hB

theorem provEquivExcl_refl (excl : List String) (a : Prov) :
    provEquivExcl excl a a :=
  ⟨rfl, rfl, rfl, rfl, rfl, rfl, rfl, rfl, rfl,
   fun _ _ => rfl, fun _ => Iff.rfl, dataIdListEquiv_refl a.dataIdList⟩

/-- A fixed timestamp for the concrete evaluations. -/
def now0 : DateStamp := ⟨"2020-01-01T00:00:00", "2020-01-01", "00:00:00"⟩

/-- C1 claim theorem (amended).  For instances built by the constructor
with no detectorId and extended by any sequence of fromDataIds calls,
fromDict(toDict(c)) reproduces the state toDict leaves behind, up to
the base equivalence rule with the creation-timestamp keys excluded. -/
theorem c1_dict_roundtrip_amended (ct : PyVal) (camera : Option String)
    (dn : PyVal) (calls : List (List DataId)) (now : DateStamp) :
    ∃ c2 d r,
      IsrProvenance.toDict (buildProv ct camera dn calls) now = .ok (c2, d) ∧
      IsrProvenance.fromDict d now = .ok r ∧
      provEquivExcl tsKeys r c2 := by
  refine ⟨provStamped ct camera dn now (dimsAfter [] calls.join) calls.join,
    dictOut ct camera dn now (dimsAfter [] calls.join) calls.join,
    provStamped ct camera dn now (dimsAfter [] calls.join) calls.join,
    ?_, ?_, provEquivExcl_refl _ _⟩
  · rw [buildProv_provInit]
    exact toDict_provInit ct camera dn now _ _
  · exact fromDict_dictOut ct camera dn now _ _

/-- C1 counterexample.  A validly constructed instance carrying a
detectorId does not round-trip through toDict and fromDict: fromDict
never restores the detectorId field (nor raftName, slotName, filter or
calibId), so the reconstruction differs from the written instance even
with the creation-timestamp keys excluded. -/
theorem c1_counterexample :
    ∃ c2 d r,
      IsrProvenance.toDict (initProv (.str "flat") none .pnone (.int 5)) now0 =
        .ok (c2, d) ∧
      IsrProvenance.fromDict d now0 = .ok r ∧
      ¬ provEquivExcl tsKeys r c2 := by
  refine ⟨_, _, _, rfl, rfl, fun h => ?_⟩
  exact absurd h.2.2.2.2.2.1 (by decide)

/-! Dimension bookkeeping lemmas. -/

/-- The multiset of keys across a list of identifiers, as a list. -/
def unionKeys (l : List DataId) : List String :=
  (l.map (fun did => did.map Prod.fst)).join

theorem mem_unionKeys (l : List DataId) (d : String) :
    d ∈ unionKeys l ↔ ∃ did ∈ l, d ∈ did.map Prod.fst := by
  simp [unionKeys, List.mem_join]

theorem unionKeys_append (a b : List DataId) :
    unionKeys (a ++ b) = unionKeys a ++ unionKeys b := by
  simp [unionKeys]

theorem mem_addKeys (did : DataId) (dims : List String) (d : String) :
    (d ∈ did.foldl (fun ds kv => if kv.1 ∈ ds then ds else ds ++ [kv.1]) dims) ↔
      d ∈ dims ∨ d ∈ did.map Prod.fst := by
  induction did generalizing dims with
  | nil => simp
  | cons kv tl ih =>
      simp only [List.foldl_cons, List.map_cons, List.mem_cons]
      by_cases hm : kv.1 ∈ dims
      · rw [if_pos hm, ih]
        constructor
        · rintro (h | h)
          · exact .inl h
          · exact .inr (.inr h)
        · rintro (h | h | h)
          · exact .inl h
          · exact .inl (h ▸ hm)
          · exact .inr h
      · rw [if_neg hm, ih]
        simp only [List.mem_append, List.mem_singleton]
        tauto

theorem mem_dimsAfter (l : List DataId) (dims : List String) (d : String) :
    d ∈ dimsAfter dims l ↔ d ∈ dims ∨ d ∈ unionKeys l := by
  induction l generalizing dims with
  | nil => simp [dimsAfter, unionKeys]
  | cons did tl ih =>
      have hjoin : unionKeys (did :: tl) = did.map Prod.fst ++ unionKeys tl := by
        simp [unionKeys]
      simp only [dimsAfter, List.foldl_cons] at *
      rw [ih, mem_addKeys, hjoin]
      simp only [List.mem_append]
      tauto

theorem addKeys_nodup (did : DataId) (dims : List String) (h : dims.Nodup) :
    (did.foldl (fun ds kv => if kv.1 ∈ ds then ds else ds ++ [kv.1]) dims).Nodup := by
  induction did generalizing dims with
  | nil => simpa
  | cons kv tl ih =>
      simp only [List.foldl_cons]
      by_cases hm : kv.1 ∈ dims
      · rw [if_pos hm]; exact ih dims h
      · rw [if_neg hm]
        refine ih _ ?_
        rw [List.nodup_append]
        refine ⟨h, List.nodup_singleton _, ?_⟩
        intro a ha hb
        rw [List.mem_singleton] at hb
        subst hb
        exact hm ha

theorem dimsAfter_nodup (l : List DataId) (dims : List String)
    (h : dims.Nodup) : (dimsAfter dims l).Nodup := by
  induction l generalizing dims with
  | nil => simpa [dimsAfter]
  | cons did tl ih =>
      simp only [dimsAfter, List.foldl_cons] at *
      exact ih _ (addKeys_nodup did dims h)

/-- C3 claim theorem.  From any state whose dimension set already equals
the union of keys over its stored identifiers (every freshly
constructed instance qualifies), an arbitrary sequence of fromDataIds
calls preserves that equality, appends the supplied identifiers in
order (duplicates included), yields a dimension set that does not
depend on the order in which the identifiers were supplied, and never
removes a dimension. -/
theorem c3_dimensions_invariant (s : Prov) (calls : List (List DataId))
    (h : dimsSetEqB s.dimensions (unionKeys s.dataIdList) = true) :
    dimsSetEq (calls.foldl IsrProvenance.fromDataIds s).dimensions
        (unionKeys (calls.foldl IsrProvenance.fromDataIds s).dataIdList) ∧
    (calls.foldl IsrProvenance.fromDataIds s).dataIdList =
        s.dataIdList ++ calls.join ∧
    (∀ calls2 : List (List DataId), calls.join.Perm calls2.join →
        dimsSetEq (calls2.foldl IsrProvenance.fromDataIds s).dimensions
          (calls.foldl IsrProvenance.fromDataIds s).dimensions) ∧
    (∀ d ∈ s.dimensions, d ∈ (calls.foldl IsrProvenance.fromDataIds s).dimensions) := by
  rw [dimsSetEqB_iff] at h
  rw [foldl_fromDataIds, fromDataIds_eq]
  refine ⟨?_, rfl, ?_, ?_⟩
  · intro d
    rw [mem_dimsAfter, unionKeys_append, List.mem_append, h d]
  · intro calls2 hperm d
    rw [foldl_fromDataIds, fromDataIds_eq]
    simp only [mem_dimsAfter, mem_unionKeys]
    constructor
    · rintro (hd | ⟨did, hdid, hk⟩)
      · exact .inl hd
      · exact .inr ⟨did, (hperm.mem_iff).mpr hdid, hk⟩
    · rintro (hd | ⟨did, hdid, hk⟩)
      · exact .inl hd
      · exact .inr ⟨did, (hperm.mem_iff).mp hdid, hk⟩
  · intro d hd
    rw [mem_dimsAfter]
    exact .inl hd

/-- C3 witness: the spec scenario, two identifiers over exposure and
detector recorded on a fresh instance, supplied in both orders. -/
theorem c3_dimensions_invariant_witness :
    dimsSetEqB (initProv (.str "flat") none .pnone .pnone).dimensions
        (unionKeys (initProv (.str "flat") none .pnone .pnone).dataIdList) = true ∧
    dimsSetEq
      (([[[("exposure", .int 100), ("detector", .int 5)],
          [("exposure", .int 101), ("detector", .int 5)]]] :
            List (List DataId)).foldl
        IsrProvenance.fromDataIds (initProv (.str "flat") none .pnone .pnone)).dimensions
      (unionKeys
        (([[[("exposure", .int 100), ("detector", .int 5)],
            [("exposure", .int 101), ("detector", .int 5)]]] :
              List (List DataId)).foldl
          IsrProvenance.fromDataIds (initProv (.str "flat") none .pnone .pnone)).dataIdList) :=
  ⟨by decide,
   (c3_dimensions_invariant (initProv (.str "flat") none .pnone .pnone)
      [[[("exposure", .int 100), ("detector", .int 5)],
        [("exposure", .int 101), ("detector", .int 5)]]] (by decide)).1⟩

theorem except_bind_error {ε α β : Type} (e : ε) (f : α → Except ε β) :
    ((Except.error e : Except ε α) >>= f) = Except.error e := rfl

/-- A fresh provenance used as the receiver of the concrete evaluations. -/
def demoProv : Prov := initProv (.str "flat") none .pnone .pnone

def sampleTable1 : PTable := ⟨["a"], [[.int 1]], []⟩

def sampleTable2 : PTable := ⟨["b"], [[.int 2]], []⟩

def sampleTable3 : PTable := ⟨["c"], [[.int 3]], []⟩

/-- C4 claim theorem (code evaluation at the failing input).  readFits
recovers only the first table from every container: the try block
begins with warnings.catch_warnings("error"), whose constructor takes
keyword-only arguments, so a TypeError is raised and swallowed by the
bare except before HDU 2 is ever read.  The two-table container of the
claim comes back with a single table, as does a three-table one; only
a one-table container survives the round trip. -/
theorem c4_readFits_single_table :
    readFitsTables (writeFitsSegments [sampleTable1, sampleTable2]) =
      .ok [sampleTable1] ∧
    readFitsTables (writeFitsSegments [sampleTable1, sampleTable2, sampleTable3]) =
      .ok [sampleTable1] ∧
    readFitsTables (writeFitsSegments [sampleTable1]) = .ok [sampleTable1] :=
  ⟨rfl, rfl, rfl⟩

/-- C5 claim theorem (code evaluation at the failing input).  With a
single alias present and consistent (INSTRUME only), calibInfoFromDict
raises the Too-many-values ValueError because the absent alias
contributes None to the value set; with both aliases present and equal
it still fails, because the singleton-set branch indexes a set.  The
claimed nested-metadata fallback is therefore unreachable. -/
theorem c5_calibInfoFromDict_always_raises :
    IsrCalib.calibInfoFromDict demoProv [("INSTRUME", .str "A")] =
      .error (.valueError "Too many values found: 2") ∧
    IsrCalib.calibInfoFromDict demoProv
        [("INSTRUME", .str "A"), ("instrument", .str "A")] =
      .error (.typeError "set object is not subscriptable") := by
  constructor
  · simp [IsrCalib.calibInfoFromDict, search, pyDedup, mdGet,
      except_bind_ok, except_bind_error]
    rfl
  · simp [IsrCalib.calibInfoFromDict, search, pyDedup, mdGet,
      except_bind_ok, except_bind_error]

/-- C7 claim theorem (code evaluation).  Any updateMetadata call with
setCalibId=True raises AttributeError while assembling the calib id,
because the conditional on the detector entry reads self._detector, an
attribute that is never assigned; the call never returns normally. -/
theorem c7_setCalibId_always_raises (s : Prov) (camera : Option String)
    (filterName : PyVal) (setDate : Bool) (now : DateStamp) (kwargs : Metadata) :
    IsrCalib.updateMetadata s camera none filterName true setDate now kwargs =
      .error (.attributeError "_detector") := by
  cases camera <;> rfl

/-- C8 claim theorem (code evaluation at the failing input).  When the
nested metadata declares an OBSTYPE other than IsrProvenance,
calibInfoFromDict fails — but with a NameError, because the error
message interpolates calib._OBSTYPE and the name calib is unbound in
the method; the expected value never makes it into any message. -/
theorem c8_obstype_mismatch_is_nameError :
    IsrCalib.calibInfoFromDict demoProv
        [("metadata", .dict [("OBSTYPE", .str "bias")])] =
      .error (.nameError "calib") := rfl

/-- C9 claim theorem.  getMetadata returns the stored reference itself,
so writing a key through the returned mapping updates the metadata the
calibration itself dereferences (the mapping __eq__ compares and the
write paths serialise); setMetadata instead installs a fresh copy, so
subsequently mutating the mapping passed to setMetadata leaves the
calibration unchanged. -/
theorem c9_getMetadata_returns_live_reference (h : RefModel.Heap)
    (c : RefModel.CalibObj) (k : String) (v : PyVal) (mref : RefModel.Ref)
    (hlive : mref < h.next) :
    RefModel.getMetadata c = c.metadataRef ∧
    RefModel.hGet (RefModel.setItem h (RefModel.getMetadata c) k v) c.metadataRef =
      mdSet (RefModel.hGet h c.metadataRef) k v ∧
    (RefModel.setMetadata h c mref).2.metadataRef ≠ mref ∧
    RefModel.hGet
        (RefModel.setItem (RefModel.setMetadata h c mref).1 mref k v)
        (RefModel.setMetadata h c mref).2.metadataRef =
      RefModel.hGet (RefModel.setMetadata h c mref).1
        (RefModel.setMetadata h c mref).2.metadataRef := by
  have hnext : (RefModel.setMetadata h c mref).2.metadataRef = h.next := rfl
  have hne : mref ≠ h.next := Nat.ne_of_lt hlive
  refine ⟨rfl, ?_, ?_, ?_⟩
  · simp [RefModel.setItem, RefModel.hSet, RefModel.hGet, RefModel.getMetadata,
      RefModel.refGet_refSet]
  · rw [hnext]
    exact fun hEq => hne hEq.symm
  · rw [hnext]
    simp [RefModel.setItem, RefModel.hSet, RefModel.hGet,
      RefModel.refGet_refSet, hne]

/-- C9 witness: a two-object heap. -/
theorem c9_getMetadata_returns_live_reference_witness :
    (0 : RefModel.Ref) < (⟨[(0, [("FOO", PyVal.int 1)])], 1⟩ : RefModel.Heap).next ∧
    RefModel.getMetadata ⟨0⟩ = (⟨0⟩ : RefModel.CalibObj).metadataRef :=
  ⟨by decide,
   (c9_getMetadata_returns_live_reference ⟨[(0, [("FOO", PyVal.int 1)])], 1⟩
      ⟨0⟩ "BAR" (PyVal.int 2) 0 (by decide)).1⟩

/-- C10 claim theorem.  A detector whose name splits on the underscore
into exactly two parts has them stored as raftName and slotName; a name
with two or more underscores makes the two-element destructuring raise
ValueError, and constructing an IsrProvenance from any detector raises
an error before the fields are ever set (fromDetector is not
implemented by the subclass). -/
theorem c10_detector_name_split (s : Prov) (name serial : String) (id : Int)
    (setDate : Bool) (now : DateStamp) (kwargs : Metadata) :
    (∀ raft slot, pyContains name '_' = true → pySplit name '_' = [raft, slot] →
      ∃ s2, IsrCalib.updateMetadata s none (some ⟨name, serial, id⟩) .pnone
          false setDate now kwargs = .ok s2 ∧
        s2.raftName = .str raft ∧ s2.slotName = .str slot ∧
        s2.detectorName = .str name) ∧
    (pyContains name '_' = true → 3 ≤ (pySplit name '_').length →
      IsrCalib.updateMetadata s none (some ⟨name, serial, id⟩) .pnone
          false setDate now kwargs =
        .error (.valueError "too many values to unpack")) ∧
    (∀ ct camera dn di,
      IsrProvenance.construct ct camera (some ⟨name, serial, id⟩) dn di =
        .error (.notImplementedError "Must be implemented by subclass.")) := by
  refine ⟨?_, ?_, fun ct camera dn di => rfl⟩
  · intro raft slot hc hs
    simp only [IsrCalib.updateMetadata, hc, hs, except_bind_ok, if_true]
    exact ⟨_, rfl, rfl, rfl, rfl⟩
  · intro hc hlen
    simp only [IsrCalib.updateMetadata, hc, if_true]
    rcases hsp : pySplit name '_' with _ | ⟨a, _ | ⟨b, _ | ⟨c2, rest⟩⟩⟩
    · rw [hsp] at hlen; simp at hlen
    · rw [hsp] at hlen; simp at hlen
    · rw [hsp] at hlen; simp at hlen
    · rfl

/-- C10 witness: the detector names R22_S11 and R22_S11_X. -/
theorem c10_detector_name_split_witness :
    pyContains "R22_S11" '_' = true ∧
    (∃ s2, IsrCalib.updateMetadata demoProv none (some ⟨"R22_S11", "123", 42⟩)
        .pnone false false now0 [] = .ok s2 ∧
      s2.raftName = .str "R22" ∧ s2.slotName = .str "S11" ∧
      s2.detectorName = .str "R22_S11") ∧
    IsrCalib.updateMetadata demoProv none (some ⟨"R22_S11_X", "123", 42⟩)
        .pnone false false now0 [] =
      .error (.valueError "too many values to unpack") :=
  ⟨by decide,
   (c10_detector_name_split demoProv "R22_S11" "123" 42 false now0 []).1
     "R22" "S11" (by decide) (by decide),
   (c10_detector_name_split demoProv "R22_S11_X" "123" 42 false now0 []).2.1
     (by decide) (by decide)⟩

/-- C6 claim theorem.  With format auto, writeText dispatches on the
extension: a .yaml name writes the toDict result as structured text and
returns the path with a normalized .yaml extension; a .ecsv name writes
the single toTable table and returns the normalized .ecsv path; any
other extension raises the unsupported-format RuntimeError whose
message names the filename; and when the ecsv branch is chosen but the
table conversion yields more than one table, the capacity RuntimeError
is raised. -/
theorem c6_writeText_auto_dispatch (outDictE : Except PyErr ProvDict)
    (tableListE : Except PyErr (List PTable)) (filename : String) :
    (∀ d, yamlExtMatch filename = true → outDictE = .ok d →
      IsrCalib.writeText outDictE tableListE filename "auto" =
        .ok ((splitext filename).1 ++ ".yaml", .yamlFile d)) ∧
    (∀ t, yamlExtMatch filename = false → ecsvExtMatch filename = true →
      tableListE = .ok [t] →
      IsrCalib.writeText outDictE tableListE filename "auto" =
        .ok ((splitext filename).1 ++ ".ecsv", .ecsvFile t)) ∧
    (yamlExtMatch filename = false → ecsvExtMatch filename = false →
      IsrCalib.writeText outDictE tableListE filename "auto" =
        .error (.runtimeError ("Attempt to write to a file " ++ filename ++
          " that does not end in .yaml or .ecsv"))) ∧
    (∀ ts, yamlExtMatch filename = false → ecsvExtMatch filename = true →
      tableListE = .ok ts → ts.length > 1 →
      IsrCalib.writeText outDictE tableListE filename "auto" =
        .error (.runtimeError ("Unable to persist " ++ toString ts.length ++
          "tables in ECSV format."))) := by
  refine ⟨?_, ?_, ?_, ?_⟩
  · intro d hy hd
    subst hd
    simp [IsrCalib.writeText, hy, except_bind_ok]
  · intro t hy he ht
    subst ht
    simp [IsrCalib.writeText, hy, he, except_bind_ok]
    rfl
  · intro hy he
    simp [IsrCalib.writeText, hy, he]
    rfl
  · intro ts hy he ht hlen
    subst ht
    simp only [IsrCalib.writeText, hy, he, except_bind_ok, Bool.and_self,
      Bool.and_true, Bool.or_false, Bool.false_or, Bool.or_true, if_true,
      if_false]
    rw [if_pos hlen]
    rfl

/-- An empty dictionary payload for the writeText witness. -/
def emptyDict : ProvDict := ⟨[], none, none, none, .pnone, [], []⟩

/-- C6 witness: cal.yaml, cal.ecsv, cal.txt, and a two-table payload. -/
theorem c6_writeText_auto_dispatch_witness :
    IsrCalib.writeText (.ok emptyDict) (.ok [sampleTable1]) "cal.yaml" "auto" =
      .ok ("cal.yaml", .yamlFile emptyDict) ∧
    IsrCalib.writeText (.ok emptyDict) (.ok [sampleTable1]) "cal.ecsv" "auto" =
      .ok ("cal.ecsv", .ecsvFile sampleTable1) ∧
    IsrCalib.writeText (.ok emptyDict) (.ok [sampleTable1]) "cal.txt" "auto" =
      .error (.runtimeError
        "Attempt to write to a file cal.txt that does not end in .yaml or .ecsv") ∧
    IsrCalib.writeText (.ok emptyDict) (.ok [sampleTable1, sampleTable2])
        "cal.ecsv" "auto" =
      .error (.runtimeError "Unable to persist 2tables in ECSV format.") := by
  refine ⟨?_, ?_, ?_, ?_⟩
  · exact (c6_writeText_auto_dispatch (.ok emptyDict) (.ok [sampleTable1])
      "cal.yaml").1 emptyDict (by decide) rfl
  · exact (c6_writeText_auto_dispatch (.ok emptyDict) (.ok [sampleTable1])
      "cal.ecsv").2.1 sampleTable1 (by decide) (by decide) rfl
  · exact (c6_writeText_auto_dispatch (.ok emptyDict) (.ok [sampleTable1])
      "cal.txt").2.2.1 (by decide) (by decide)
  · exact (c6_writeText_auto_dispatch (.ok emptyDict)
      (.ok [sampleTable1, sampleTable2]) "cal.ecsv").2.2.2
      [sampleTable1, sampleTable2] (by decide) (by decide) rfl (by decide)

/-! Generic lemmas for the table round trip. -/

theorem mdGet_none_of_not_mem {m : Metadata} {k : String}
    (h : k ∉ m.map Prod.fst) : mdGet m k = none := by
  cases hm : mdGet m k with
  | none => rfl
  | some v => exact absurd (mdGet_mem_keys hm) h

theorem mdGet_isSome_of_mem {m : Metadata} {k : String}
    (h : k ∈ m.map Prod.fst) : ∃ v, mdGet m k = some v := by
  induction m with
  | nil => simp at h
  | cons hd tl ih =>
      obtain ⟨k0, v0⟩ := hd
      by_cases h0 : k0 = k
      · exact ⟨v0, by simp [mdGet, h0]⟩
      · simp only [List.map_cons, List.mem_cons] at h
        rcases h with h | h
        · exact absurd h.symm h0
        · obtain ⟨v, hv⟩ := ih h
          exact ⟨v, by simp [mdGet, h0, hv]⟩

/-- Lookup in the non-None filter of a dict with unique keys. -/
theorem mdGet_filter (m : Metadata) (k : String)
    (h : (m.map Prod.fst).Nodup) :
    mdGet (m.filter (fun kv => kv.2 != PyVal.pnone)) k =
      match mdGet m k with
      | some v => if v = .pnone then none else some v
      | none => none := by
  induction m with
  | nil => simp [mdGet]
  | cons hd tl ih =>
      obtain ⟨k0, v0⟩ := hd
      simp only [List.map_cons, List.nodup_cons] at h
      by_cases h0 : k0 = k
      · subst h0
        have htl : mdGet tl k0 = none := mdGet_none_of_not_mem h.1
        have hftl : mdGet (tl.filter (fun kv => kv.2 != PyVal.pnone)) k0 = none := by
          rw [ih h.2, htl]
        by_cases hv : v0 = .pnone
        · subst hv
          simp [List.filter, mdGet, hftl]
        · have : (v0 != PyVal.pnone) = true := by
            simp [bne_iff_ne, hv]
          simp [List.filter, this, mdGet, hv]
      · by_cases hv : v0 = .pnone
        · subst hv
          simp only [List.filter]
          simp only [show (PyVal.pnone != PyVal.pnone) = false by simp]
          rw [ih h.2]
          simp [mdGet, h0]
        · have hb : (v0 != PyVal.pnone) = true := by simp [bne_iff_ne, hv]
          simp only [List.filter, hb, mdGet, if_neg h0]
          exact ih h.2

theorem mdFilter_keys_nodup (m : Metadata) (h : (m.map Prod.fst).Nodup) :
    ((m.filter (fun kv => kv.2 != PyVal.pnone)).map Prod.fst).Nodup := by
  have hsub : (m.filter (fun kv => kv.2 != PyVal.pnone)).Sublist m :=
    List.filter_sublist m
  exact h.sublist (hsub.map Prod.fst)

/-- mapM over Except with pointwise-known results. -/
theorem mapM_ok {α β : Type} (l : List α) (f : α → Except PyErr β)
    (g : α → β) (h : ∀ x ∈ l, f x = .ok (g x)) :
    l.mapM f = .ok (l.map g) := by
  induction l with
  | nil => rfl
  | cons hd tl ih =>
      have hhd := h hd (by simp)
      have htl := ih (fun x hx => h x (by simp [hx]))
      simp only [List.mapM_cons, hhd, htl, except_bind_ok, List.map_cons]
      rfl

/-- Appending semantics of mdSet for a fresh key. -/
theorem mdSet_append_of_not_mem (m : Metadata) (k : String) (v : PyVal)
    (h : k ∉ m.map Prod.fst) : mdSet m k v = m ++ [(k, v)] := by
  induction m with
  | nil => rfl
  | cons hd tl ih =>
      obtain ⟨k0, v0⟩ := hd
      simp only [List.map_cons, List.mem_cons] at h
      push_neg at h
      have h0 : ¬(k0 = k) := fun hc => h.1 hc.symm
      simp [mdSet, h0, ih h.2]

/-- The schema dictionary built by fromTable over already-lower-case,
duplicate-free column names is the identity graph. -/
theorem schema_fold (D : List String) (hlow : ∀ c ∈ D, pyLower c = c)
    (hnd : D.Nodup) :
    D.foldl (fun sch c => mdSet sch (pyLower c) (.str c)) [] =
      D.map (fun c => (c, PyVal.str c)) := by
  suffices hgen : ∀ sch : Metadata, (∀ c ∈ D, c ∉ sch.map Prod.fst) →
      D.foldl (fun sch2 c => mdSet sch2 (pyLower c) (.str c)) sch =
        sch ++ D.map (fun c => (c, PyVal.str c)) by
    simpa using hgen [] (by simp)
  induction D with
  | nil => intro sch _; simp
  | cons hd tl ih =>
      intro sch hfresh
      have hlhd : pyLower hd = hd := hlow hd (by simp)
      have hset : mdSet sch (pyLower hd) (.str hd) = sch ++ [(hd, PyVal.str hd)] := by
        rw [hlhd]
        exact mdSet_append_of_not_mem sch hd (.str hd) (hfresh hd (by simp))
      simp only [List.foldl_cons, hset]
      rw [ih (fun c hc => hlow c (by simp [hc])) (List.Nodup.of_cons hnd)]
      · simp
      · intro c hc
        simp only [List.map_append, List.mem_append]
        push_neg
        refine ⟨hfresh c (by simp [hc]), ?_⟩
        simp only [List.map_cons, List.map_nil, List.mem_singleton]
        intro hceq
        rw [List.nodup_cons] at hnd
        exact hnd.1 (hceq ▸ hc)

/-- The dimension collection of fromTable over already-lower-case,
duplicate-free column names returns the names unchanged. -/
theorem dims_fold (D : List String) (hlow : ∀ c ∈ D, pyLower c = c)
    (hnd : D.Nodup) :
    D.foldl (fun ds c => if pyLower c ∈ ds then ds else ds ++ [pyLower c]) [] = D := by
  suffices hgen : ∀ acc : List String, (∀ c ∈ D, c ∉ acc) →
      D.foldl (fun ds c => if pyLower c ∈ ds then ds else ds ++ [pyLower c]) acc =
        acc ++ D by
    simpa using hgen [] (by simp)
  induction D with
  | nil => intro acc _; simp
  | cons hd tl ih =>
      intro acc hfresh
      have hlhd : pyLower hd = hd := hlow hd (by simp)
      rw [List.nodup_cons] at hnd
      simp only [List.foldl_cons, hlhd, if_neg (hfresh hd (by simp))]
      rw [ih (fun c hc => hlow c (by simp [hc])) hnd.2]
      · simp
      · intro c hc
        simp only [List.mem_append, List.mem_singleton]
        push_neg
        exact ⟨hfresh c (by simp [hc]), fun hceq => hnd.1 (hceq ▸ hc)⟩

/-- Lookup in a graph dictionary keyed by the elements of a list. -/
theorem mdGet_graph (D : List String) (f : String → PyVal) (k : String) :
    mdGet (D.map (fun c => (c, f c))) k =
      if k ∈ D then some (f k) else none := by
  induction D with
  | nil => simp [mdGet]
  | cons hd tl ih =>
      by_cases h0 : hd = k
      · subst h0; simp [mdGet]
      · have : ¬(k = hd) := fun hc => h0 hc.symm
        simp [mdGet, h0, ih, this]

/-- The value of a named column in a row built from the same names. -/
theorem rowGet_graph (names : List String) (g : String → PyVal) (col : String)
    (h : col ∈ names) : rowGet names (names.map g) col = .ok (g col) := by
  induction names with
  | nil => simp at h
  | cons hd tl ih =>
      by_cases h0 : hd = col
      · subst h0; simp [rowGet]
      · simp only [List.mem_cons] at h
        rcases h with h | h
        · exact absurd h.symm h0
        · simp [rowGet, h0, ih h]

/-- General characterisation of the subclass updateMetadata call. -/
theorem updateMetadataKw_ok (s : Prov) (setDate : Bool) (now : DateStamp)
    (kwargs : Metadata)
    (h : (forbiddenKw.any (fun k => (mdGet kwargs k).isSome)) = false) :
    IsrProvenance.updateMetadataKw s setDate now kwargs =
      .ok { s with
        metadata := mdUpdate (writeIdentity s.metadata s)
          (mdUpdate (dateSupp setDate now)
            (mdSet kwargs "calibType" s.calibType)) } := by
  unfold IsrProvenance.updateMetadataKw
  rw [h]
  rfl

/-- Table construction from homogeneous nonempty rows. -/
theorem mkTable_ok (L : List DataId) (D : List String) (hne : L ≠ [])
    (hkeys : ∀ did ∈ L, dimsSetEqB (did.map Prod.fst) D = true) :
    mkTable L D =
      .ok ⟨D, L.map (fun r => D.map (fun c => (mdGet r c).getD .pnone)), []⟩ := by
  have hemp : L.isEmpty = false := by
    cases L with
    | nil => exact absurd rfl hne
    | cons hd tl => rfl
  have hrows : ∀ r ∈ L,
      (if dimsSetEqB (r.map Prod.fst) D then
        D.mapM (fun c =>
          match mdGet r c with
          | some v => pure v
          | none => throw (.keyError c))
       else throw (.valueError "row keys mismatch")) =
        (.ok (D.map (fun c => (mdGet r c).getD .pnone)) : Except PyErr (List PyVal)) := by
    intro r hr
    rw [if_pos (hkeys r hr)]
    refine mapM_ok D _ _ ?_
    intro c hc
    have hcr : c ∈ r.map Prod.fst :=
      ((dimsSetEqB_iff _ _).mp (hkeys r hr) c).mpr hc
    obtain ⟨v, hv⟩ := mdGet_isSome_of_mem hcr
    simp [hv]
    rfl
  unfold mkTable
  rw [hemp]
  simp only [Bool.false_eq_true, if_false, except_bind_ok]
  rw [mapM_ok L _ _ hrows]
  rfl

theorem mdStamped_keys (ct : PyVal) (camera : Option String) (dn : PyVal) (now : DateStamp) :
    (mdStamped ct camera dn now).map Prod.fst =
      ["OBSTYPE", "IsrProvenance_SCHEMA", "IsrProvenance_VERSION", "INSTRUME",
       "RAFTNAME", "SLOTNAME", "DETECTOR", "DET_NAME", "DET_SER", "FILTER",
       "CALIB_ID", "calibType", "CALIBDATE", "CALIB_CREATION_DATE",
       "CALIB_CREATION_TIME"] := by
  simp [mdStamped, mdInit, tsEntries]

theorem c2_meta_core (ct : PyVal) (camera : Option String) (dn : PyVal) (now : DateStamp)
    (R : Prov)
    (h1 : R.instrument = camVal camera) (h2 : R.raftName = .pnone)
    (h3 : R.slotName = .pnone) (h4 : R.detectorId = .pnone)
    (h5 : R.detectorName = dn) (h6 : R.detectorSerial = .pnone)
    (h7 : R.filter = .pnone) (h8 : R.calibId = .pnone) :
    mdEquivExcl tsKeys
      (mdUpdate
        (writeIdentity
          (mdUpdate (writeIdentity (initProv (.str "unknown") none .pnone .pnone).metadata
              (initProv (.str "unknown") none .pnone .pnone))
            (mdUpdate []
              (mdSet ((mdStamped ct camera dn now).filter (fun kv => kv.2 != PyVal.pnone))
                "calibType" (.str "unknown"))))
          R)
        [("calibType", ct)])
      (mdStamped ct camera dn now) := by
  intro k hk
  have hndTm : ((mdStamped ct camera dn now).map Prod.fst).Nodup := by
    rw [mdStamped_keys]; decide
  have hndfm : (((mdStamped ct camera dn now).filter (fun kv => kv.2 != PyVal.pnone)).map Prod.fst).Nodup :=
    mdFilter_keys_nodup _ hndTm
  have hndkvs : ((mdSet ((mdStamped ct camera dn now).filter (fun kv => kv.2 != PyVal.pnone)) "calibType" (.str "unknown")).map Prod.fst).Nodup :=
    mdSet_nodup _ _ _ hndfm
  have hndkvs2 : ((mdUpdate [] (mdSet ((mdStamped ct camera dn now).filter (fun kv => kv.2 != PyVal.pnone)) "calibType" (.str "unknown"))).map Prod.fst).Nodup :=
    mdUpdate_nodup _ _ (by simp)
  rw [mdGet_mdUpdate _ _ _ (by simp : ((([("calibType", ct)]) : Metadata).map Prod.fst).Nodup)]
  by_cases hc : k = "calibType"
  · subst hc
    simp [mdGet, mdStamped, mdInit, tsEntries]
  · have hcs : ¬("calibType" = k) := fun he => hc he.symm
    simp only [mdGet, if_neg hcs]
    have ht1 : ¬(k = "CALIBDATE") := fun he => hk (by simp [tsKeys, he])
    have ht2 : ¬(k = "CALIB_CREATION_DATE") := fun he => hk (by simp [tsKeys, he])
    have ht3 : ¬(k = "CALIB_CREATION_TIME") := fun he => hk (by simp [tsKeys, he])
    simp only [initProv_eq, writeIdentity, mdGet_mdSet, h1, h2, h3, h4, h5, h6, h7, h8]
    rw [mdGet_mdUpdate _ _ _ hndkvs2]
    rw [mdGet_mdUpdate ([] : Metadata) _ k hndkvs]
    rw [mdGet_mdSet]
    rw [mdGet_filter _ _ hndTm]
    simp only [mdStamped, mdInit, tsEntries, List.cons_append, List.nil_append, mdGet, if_neg hcs]
    by_cases h9 : k = "OBSTYPE"
    · subst h9; simp [orNone, truthy]
    by_cases h10 : k = "IsrProvenance_SCHEMA"
    · subst h10; simp [orNone, truthy]
    by_cases h11 : k = "IsrProvenance_VERSION"
    · subst h11; simp [orNone, truthy]
    by_cases h12 : k = "INSTRUME"
    · subst h12; simp [orNone, truthy]
    by_cases h13 : k = "RAFTNAME"
    · subst h13; simp [orNone, truthy]
    by_cases h14 : k = "SLOTNAME"
    · subst h14; simp [orNone, truthy]
    by_cases h15 : k = "DETECTOR"
    · subst h15; simp [orNone, truthy]
    by_cases h16 : k = "DET_NAME"
    · subst h16; simp [orNone, truthy]
    by_cases h17 : k = "DET_SER"
    · subst h17; simp [orNone, truthy]
    by_cases h18 : k = "FILTER"
    · subst h18; simp [orNone, truthy]
    by_cases h19 : k = "CALIB_ID"
    · subst h19; simp [orNone, truthy]
    simp [Ne.symm h9, Ne.symm h10, Ne.symm h11, Ne.symm h12, Ne.symm h13,
      Ne.symm h14, Ne.symm h15, Ne.symm h16, Ne.symm h17, Ne.symm h18,
      Ne.symm h19, Ne.symm ht1, Ne.symm ht2, Ne.symm ht3]

theorem mapM_map' {α β γ : Type} (l : List α) (h : α → β) (f : β → Except PyErr γ) :
    (l.map h).mapM f = l.mapM (fun x => f (h x)) := by
  induction l with
  | nil => rfl
  | cons hd tl ih => rw [List.map_cons, List.mapM_cons, List.mapM_cons, ih]

theorem fm_lookup (ct : PyVal) (camera : Option String) (dn : PyVal) (now : DateStamp)
    (k : String) :
    mdGet ((mdStamped ct camera dn now).filter (fun kv => kv.2 != PyVal.pnone)) k =
      match mdGet (mdStamped ct camera dn now) k with
      | some v => if v = .pnone then none else some v
      | none => none := by
  refine mdGet_filter _ _ ?_
  rw [mdStamped_keys]; decide

theorem fm_instrume (ct : PyVal) (camera : Option String) (dn : PyVal) (now : DateStamp)
    (hcam : camera ≠ some "") :
    (mdGet ((mdStamped ct camera dn now).filter (fun kv => kv.2 != PyVal.pnone))
        "INSTRUME").getD .pnone = camVal camera := by
  rw [fm_lookup]
  have hIN : mdGet (mdStamped ct camera dn now) "INSTRUME" = some (orNone (camVal camera)) := by
    simp [mdStamped, mdInit, tsEntries, mdGet]
  rw [hIN]
  rcases camera with _ | nm
  · simp [camVal, orNone, truthy]
  · have hnm : ¬(nm = "") := fun he => hcam (by rw [he])
    have hb : (nm == "") = false := by simp [hnm]
    simp [camVal, orNone, truthy, hb]

theorem fm_detname (ct : PyVal) (camera : Option String) (dn : PyVal) (now : DateStamp)
    (hdn : dn = .pnone ∨ truthy dn = true) :
    (mdGet ((mdStamped ct camera dn now).filter (fun kv => kv.2 != PyVal.pnone))
        "DET_NAME").getD .pnone = dn := by
  rw [fm_lookup]
  have hDN : mdGet (mdStamped ct camera dn now) "DET_NAME" = some (orNone dn) := by
    simp [mdStamped, mdInit, tsEntries, mdGet]
  rw [hDN]
  rcases hdn with rfl | htr
  · simp [orNone, truthy]
  · have hne : ¬(dn = PyVal.pnone) := by
      intro he; rw [he] at htr; simp [truthy] at htr
    simp [orNone, htr, hne]

theorem fm_detser (ct : PyVal) (camera : Option String) (dn : PyVal) (now : DateStamp) :
    (mdGet ((mdStamped ct camera dn now).filter (fun kv => kv.2 != PyVal.pnone))
        "DET_SER").getD .pnone = PyVal.pnone := by
  rw [fm_lookup]
  have hDS : mdGet (mdStamped ct camera dn now) "DET_SER" = some PyVal.pnone := by
    simp [mdStamped, mdInit, tsEntries, mdGet]
  rw [hDS]
  simp

theorem fm_guard (ct : PyVal) (camera : Option String) (dn : PyVal) (now : DateStamp) :
    (forbiddenKw.any (fun k =>
      (mdGet ((mdStamped ct camera dn now).filter (fun kv => kv.2 != PyVal.pnone))
        k).isSome)) = false := by
  have h1 : mdGet ((mdStamped ct camera dn now).filter (fun kv => kv.2 != PyVal.pnone)) "camera" = none := by
    rw [fm_lookup]; simp [mdStamped, mdInit, tsEntries, mdGet]
  have h2 : mdGet ((mdStamped ct camera dn now).filter (fun kv => kv.2 != PyVal.pnone)) "detector" = none := by
    rw [fm_lookup]; simp [mdStamped, mdInit, tsEntries, mdGet]
  have h3 : mdGet ((mdStamped ct camera dn now).filter (fun kv => kv.2 != PyVal.pnone)) "filterName" = none := by
    rw [fm_lookup]; simp [mdStamped, mdInit, tsEntries, mdGet]
  have h4 : mdGet ((mdStamped ct camera dn now).filter (fun kv => kv.2 != PyVal.pnone)) "setCalibId" = none := by
    rw [fm_lookup]; simp [mdStamped, mdInit, tsEntries, mdGet]
  simp [forbiddenKw, h1, h2, h3, h4]

theorem fm_calibtype (ct : PyVal) (camera : Option String) (dn : PyVal) (now : DateStamp)
    (hct : ct ≠ .pnone) :
    mdGet ((mdStamped ct camera dn now).filter (fun kv => kv.2 != PyVal.pnone))
      "calibType" = some ct := by
  rw [fm_lookup]
  have hCT : mdGet (mdStamped ct camera dn now) "calibType" = some ct := by
    simp [mdStamped, mdInit, tsEntries, mdGet]
  rw [hCT]
  simp [hct]

theorem entries_equiv (L : List DataId) (D : List String)
    (hkeys : ∀ did ∈ L, dimsSetEqB (did.map Prod.fst) D = true) :
    dataIdListEquiv
      (L.map (fun r => (sortStrings D).map (fun dim => (dim, (mdGet r dim).getD .pnone))))
      L := by
  induction L with
  | nil => exact List.Forall₂.nil
  | cons r tl ih =>
      refine List.Forall₂.cons ?_ (ih (fun did hd => hkeys did (by simp [hd])))
      intro k
      rw [mdGet_graph]
      have hiff : (k ∈ r.map Prod.fst) ↔ k ∈ D :=
        (dimsSetEqB_iff _ _).mp (hkeys r (by simp)) k
      by_cases hkD : k ∈ D
      · rw [if_pos ((mem_sortStrings k D).mpr hkD)]
        obtain ⟨v, hv⟩ := mdGet_isSome_of_mem (hiff.mpr hkD)
        simp [hv]
      · rw [if_neg (fun hc => hkD ((mem_sortStrings k D).mp hc))]
        exact (mdGet_none_of_not_mem (fun hc => hkD (hiff.mp hc))).symm

set_option maxHeartbeats 1600000 in
theorem c2_core (ct : PyVal) (camera : Option String) (dn : PyVal)
    (D : List String) (L : List DataId) (now : DateStamp)
    (hcam : camera ≠ some "") (hdn : dn = .pnone ∨ truthy dn = true)
    (hct : ct ≠ .pnone) (hne : L ≠ [])
    (hndD : D.Nodup) (hlowD : ∀ c ∈ D, pyLower c = c)
    (hkeys : ∀ did ∈ L, dimsSetEqB (did.map Prod.fst) D = true) :
    ∃ ts, IsrProvenance.toTable (provInit ct camera dn D L) now =
        .ok (provStamped ct camera dn now D L, ts) ∧
      ∃ r, IsrProvenance.fromTable ts now = .ok r ∧
        provEquivExcl tsKeys r (provStamped ct camera dn now D L) := by
  have hstamp : IsrProvenance.updateMetadataKw (provInit ct camera dn D L) true now [] =
      .ok (provStamped ct camera dn now D L) := rfl
  have htab : IsrProvenance.toTable (provInit ct camera dn D L) now =
      .ok (provStamped ct camera dn now D L,
        [⟨D, L.map (fun r => D.map (fun c => (mdGet r c).getD .pnone)),
          (mdStamped ct camera dn now).filter (fun kv => kv.2 != PyVal.pnone)⟩]) := by
    simp only [IsrProvenance.toTable, hstamp, except_bind_ok]
    rw [show (provStamped ct camera dn now D L).dataIdList = L from rfl,
        show (provStamped ct camera dn now D L).dimensions = D from rfl,
        show (provStamped ct camera dn now D L).metadata = mdStamped ct camera dn now from rfl,
        mkTable_ok L D hne hkeys]
    simp only [except_bind_ok]
    rfl
  refine ⟨_, htab, ?_⟩
  have hrows : (L.map (fun r => D.map (fun c => (mdGet r c).getD .pnone))).mapM
      (fun row => (sortStrings D).mapM (fun dim =>
        (match mdGet (D.map (fun c => (c, PyVal.str c))) dim with
          | some (.str c) => Except.ok c
          | _ => Except.error (PyErr.keyError dim)) >>= fun col =>
        rowGet D row col >>= fun v =>
        Except.ok (dim, v))) =
      .ok (L.map (fun r => (sortStrings D).map (fun dim => (dim, (mdGet r dim).getD .pnone)))) := by
    rw [mapM_map']
    refine mapM_ok L _ _ ?_
    intro r hr
    refine mapM_ok (sortStrings D) _ _ ?_
    intro dim hdim
    have hdimD : dim ∈ D := (mem_sortStrings dim D).mp hdim
    rw [mdGet_graph]
    simp only [if_pos hdimD]
    rw [except_bind_ok]
    rw [rowGet_graph D (fun c => (mdGet r c).getD .pnone) dim hdimD, except_bind_ok]
  have hguard := fm_guard ct camera dn now
  have hB : ∀ s : Prov, IsrProvenance.updateMetadataKw s false now [] =
      .ok { s with
        metadata := mdUpdate (writeIdentity s.metadata s)
          (mdUpdate (dateSupp false now)
            (mdSet [] "calibType" s.calibType)) } :=
    fun s => updateMetadataKw_ok s false now [] rfl
  have hA := updateMetadataKw_ok
    { instrument := camVal none, raftName := .pnone, slotName := .pnone,
      detectorName := .pnone, detectorSerial := .pnone, detectorId := .pnone,
      filter := .pnone, calibId := .pnone,
      metadata := mdInit (.str "unknown") none .pnone .pnone,
      calibType := .str "unknown", dimensions := [], dataIdList := [] } false now
    ((mdStamped ct camera dn now).filter (fun kv => kv.2 != PyVal.pnone)) hguard
  simp only [IsrProvenance.fromTable, pure_bind, except_bind_ok,
    fm_calibtype ct camera dn now hct, schema_fold D hlowD hndD,
    dims_fold D hlowD hndD, hrows, IsrProvenance.fromDict, hA, hB, initProv_eq]
  refine ⟨_, rfl, ?_, ?_, ?_, ?_, ?_, ?_, ?_, ?_, ?_, ?_, ?_, ?_⟩
  · exact fm_instrume ct camera dn now hcam
  · rfl
  · rfl
  · exact fm_detname ct camera dn now hdn
  · exact fm_detser ct camera dn now
  · rfl
  · rfl
  · rfl
  · rfl
  · exact c2_meta_core ct camera dn now _ (fm_instrume ct camera dn now hcam)
      rfl rfl rfl (fm_detname ct camera dn now hdn) (fm_detser ct camera dn now)
      rfl rfl
  · exact fun d => mem_sortStrings d D
  · exact entries_equiv L D hkeys

/-- C2 claim theorem (amended).  For instances built by the constructor
and fromDataIds whose dimension names are already lower case, whose
identifiers are nonempty and homogeneous over the dimension set, whose
camera name, detector name and calibType are not falsy-but-present, and
whose raftName, slotName, detectorId, filter and calibId are unset,
fromTable(toTable(c)) reproduces the stamped state up to the base
equivalence rule with the creation-timestamp keys excluded. -/
theorem c2_table_roundtrip_amended (ct : PyVal) (camera : Option String)
    (dn : PyVal) (calls : List (List DataId)) (now : DateStamp)
    (hcam : camera ≠ some "")
    (hdn : dn = .pnone ∨ truthy dn = true)
    (hct : ct ≠ .pnone)
    (hne : calls.join ≠ [])
    (hlow : ∀ did ∈ calls.join, ∀ kv ∈ did, pyLower kv.1 = kv.1)
    (hkeys : ∀ did ∈ calls.join,
      dimsSetEqB (did.map Prod.fst) (dimsAfter [] calls.join) = true) :
    ∃ c2 ts r,
      IsrProvenance.toTable (buildProv ct camera dn calls) now = .ok (c2, ts) ∧
      IsrProvenance.fromTable ts now = .ok r ∧
      provEquivExcl tsKeys r c2 := by
  have hndD : (dimsAfter [] calls.join).Nodup := dimsAfter_nodup _ _ (by simp)
  have hlowD : ∀ c ∈ dimsAfter [] calls.join, pyLower c = c := by
    intro c hc
    rcases (mem_dimsAfter _ _ _).mp hc with h | h
    · simp at h
    · obtain ⟨did, hdid, hk⟩ := (mem_unionKeys _ _).mp h
      obtain ⟨kv, hkv, hfst⟩ := List.mem_map.mp hk
      rw [← hfst]
      exact hlow did hdid kv hkv
  obtain ⟨ts, hts, r, hr, heqv⟩ := c2_core ct camera dn (dimsAfter [] calls.join)
    calls.join now hcam hdn hct hne hndD hlowD hkeys
  refine ⟨provStamped ct camera dn now (dimsAfter [] calls.join) calls.join,
    ts, r, ?_, hr, heqv⟩
  rw [buildProv_provInit]
  exact hts

/-- C2 counterexample.  The round trip is not casing-independent: a
single identifier with the dimension name Exposure comes back with the
dimension set lower-cased to exposure, so the reconstruction compares
unequal to the instance toTable stamped. -/
theorem c2_counterexample :
    ∃ c2 ts r,
      IsrProvenance.toTable
          (buildProv (.str "flat") none .pnone [[[("Exposure", .int 1)]]]) now0 =
        .ok (c2, ts) ∧
      IsrProvenance.fromTable ts now0 = .ok r ∧
      ¬ provEquivExcl tsKeys r c2 := by
  refine ⟨_, _, _, rfl, rfl, fun h => ?_⟩
  exact absurd ((h.2.2.2.2.2.2.2.2.2.2.1 "Exposure").mpr (by decide)) (by decide)

/-- C2 witness: the spec scenario with lower-case dimension names. -/
theorem c2_table_roundtrip_amended_witness :
    ((some "LSST" : Option String) ≠ some "") ∧
    ∃ c2 ts r,
      IsrProvenance.toTable
          (buildProv (.str "flat") (some "LSST") .pnone
            [[[("exposure", .int 100), ("detector", .int 5)],
              [("exposure", .int 101), ("detector", .int 5)]]]) now0 =
        .ok (c2, ts) ∧
      IsrProvenance.fromTable ts now0 = .ok r ∧
      provEquivExcl tsKeys r c2 :=
  ⟨by decide,
   c2_table_roundtrip_amended (.str "flat") (some "LSST") .pnone
     [[[("exposure", .int 100), ("detector", .int 5)],
       [("exposure", .int 101), ("detector", .int 5)]]] now0
     (by decide) (.inl rfl) (by decide) (by decide) (by decide) (by decide)⟩

end IpIsr
